import Mathlib

/-
Verification of the drone-visual-positioning onboard pipeline.

Shallow embedding of the Python sources:
  - src/onboard/msp.py            (MSP SET_RAW_GPS frame encoding)
  - src/onboard/flight_recorder.py (binary record layout)
  - src/shared/tile_math.py       (Web Mercator conversions)
  - src/onboard/dead_reckoning.py (constant-velocity extrapolation)
  - src/onboard/rate_limiter.py   (token bucket)
  - src/onboard/tile_cache.py     (LRU cache)
  - src/onboard/ekf.py            (constant-velocity Kalman filter)
  - src/onboard/geofence.py       (circle/rect fence + checker)
  - src/onboard/fusion.py         (position fusion engine)

Conventions: Python floats are modelled exactly (ℝ for the numeric
pipeline, ℚ for the rate limiter, IEEE bit patterns where only the byte
layout matters); Python ints are ℤ/ℕ; code that raises is modelled with
Option (none = exception).
-/

namespace Msp

/-- GPS data for MSP_SET_RAW_GPS (src/onboard/msp.py, MSPGPSData).
Fields are Python ints; the documented wire types are u8 fix_type,
u8 num_sats, i32 lat, i32 lon, i16 alt, u16 speed, u16 ground_course,
u16 hdop. -/
structure MSPGPSData where
  fix_type : Int
  num_sats : Int
  lat : Int
  lon : Int
  alt : Int
  speed : Int
  ground_course : Int
  hdop : Int

/-- struct.pack "B": one unsigned byte; raises (none) when out of range. -/
def packU8 (v : Int) : Option (List Nat) :=
  if 0 ≤ v ∧ v < 256 then some [v.toNat] else none

/-- struct.pack "<H": unsigned 16-bit little-endian; raises when out of range. -/
def packU16 (v : Int) : Option (List Nat) :=
  if 0 ≤ v ∧ v < 65536 then some [v.toNat % 256, v.toNat / 256 % 256] else none

/-- struct.pack "<i": signed 32-bit little-endian (two's complement bytes);
raises when out of range. -/
def packI32 (v : Int) : Option (List Nat) :=
  if -2147483648 ≤ v ∧ v < 2147483648 then
    some (let m := (v % 4294967296).toNat
      [m % 256, m / 256 % 256, m / 65536 % 256, m / 16777216 % 256])
  else none

/-- Python `a & 0xFFFF` on an arbitrary int (infinite two's complement):
equals `a mod 2^16`, always in [0, 65536). -/
def pyAnd16 (a : Int) : Int := a % 65536

/-- msp_checksum: XOR of all bytes (src/onboard/msp.py lines 79-84). -/
def msp_checksum (data : List Nat) : Nat :=
  data.foldl (fun cs b => cs ^^^ b) 0

/-- MSP_SET_RAW_GPS command id. -/
def MSP_SET_RAW_GPS : Nat := 201

/-- encode_set_raw_gps (src/onboard/msp.py lines 87-122): header "$M<",
then length byte, command byte, 18-byte payload `<BBiiHHHH` (alt masked
with & 0xFFFF before packing), then checksum = XOR of length, command and
payload bytes.  Byte values of "$M<" are 36, 77, 60. -/
def encode_set_raw_gps (gps : MSPGPSData) : Option (List Nat) :=
  match packU8 gps.fix_type, packU8 gps.num_sats, packI32 gps.lat, packI32 gps.lon,
      packU16 (pyAnd16 gps.alt), packU16 gps.speed, packU16 gps.ground_course,
      packU16 gps.hdop with
  | some b1, some b2, some b3, some b4, some b5, some b6, some b7, some b8 =>
    let payload := b1 ++ b2 ++ b3 ++ b4 ++ b5 ++ b6 ++ b7 ++ b8
    let data := [payload.length, MSP_SET_RAW_GPS] ++ payload
    let cs := msp_checksum data
    some ([36, 77, 60] ++ data ++ [cs])
  | _, _, _, _, _, _, _, _ => none

theorem packU8_eq (v : Int) (h0 : 0 ≤ v) (h1 : v < 256) :
    packU8 v = some [v.toNat] := by
  simp [packU8, h0, h1]

theorem packU16_eq (v : Int) (h0 : 0 ≤ v) (h1 : v < 65536) :
    packU16 v = some [v.toNat % 256, v.toNat / 256 % 256] := by
  simp [packU16, h0, h1]

theorem packI32_isSome (v : Int) (h0 : -2147483648 ≤ v) (h1 : v < 2147483648) :
    ∃ bs, packI32 v = some bs ∧ bs.length = 4 := by
  exact ⟨[(v % 4294967296).toNat % 256, (v % 4294967296).toNat / 256 % 256,
      (v % 4294967296).toNat / 65536 % 256, (v % 4294967296).toNat / 16777216 % 256],
    by simp [packI32, h0, h1], rfl⟩

theorem pyAnd16_range (a : Int) : 0 ≤ pyAnd16 a ∧ pyAnd16 a < 65536 := by
  constructor
  · exact Int.emod_nonneg a (by norm_num)
  · exact Int.emod_lt_of_pos a (by norm_num)

/-- C4: for every MSPGPSData whose fields fit their documented wire types,
encode_set_raw_gps returns a frame of exactly 24 bytes: header "$M<"
(bytes 36, 77, 60), length byte 18, command byte 201, an 18-byte
little-endian payload, and a final checksum byte equal to the XOR of the
length byte, the command byte, and all 18 payload bytes. -/
theorem msp_frame_length_and_checksum (g : MSPGPSData)
    (hft0 : 0 ≤ g.fix_type) (hft1 : g.fix_type < 256)
    (hns0 : 0 ≤ g.num_sats) (hns1 : g.num_sats < 256)
    (hlat0 : -2147483648 ≤ g.lat) (hlat1 : g.lat < 2147483648)
    (hlon0 : -2147483648 ≤ g.lon) (hlon1 : g.lon < 2147483648)
    (hsp0 : 0 ≤ g.speed) (hsp1 : g.speed < 65536)
    (hgc0 : 0 ≤ g.ground_course) (hgc1 : g.ground_course < 65536)
    (hhd0 : 0 ≤ g.hdop) (hhd1 : g.hdop < 65536) :
    ∃ payload : List Nat, payload.length = 18 ∧
      encode_set_raw_gps g =
        some ([36, 77, 60] ++ [18, MSP_SET_RAW_GPS] ++ payload ++
          [msp_checksum ([18, MSP_SET_RAW_GPS] ++ payload)]) ∧
      ([36, 77, 60] ++ [18, MSP_SET_RAW_GPS] ++ payload ++
          [msp_checksum ([18, MSP_SET_RAW_GPS] ++ payload)]).length = 24 := by
  obtain ⟨blat, hblat, hblatlen⟩ := packI32_isSome g.lat hlat0 hlat1
  obtain ⟨blon, hblon, hblonlen⟩ := packI32_isSome g.lon hlon0 hlon1
  obtain ⟨halt0, halt1⟩ := pyAnd16_range g.alt
  refine ⟨[g.fix_type.toNat] ++ [g.num_sats.toNat] ++ blat ++ blon ++
      [(pyAnd16 g.alt).toNat % 256, (pyAnd16 g.alt).toNat / 256 % 256] ++
      [g.speed.toNat % 256, g.speed.toNat / 256 % 256] ++
      [g.ground_course.toNat % 256, g.ground_course.toNat / 256 % 256] ++
      [g.hdop.toNat % 256, g.hdop.toNat / 256 % 256], ?_, ?_, ?_⟩
  · simp [hblatlen, hblonlen]
  · rw [encode_set_raw_gps, packU8_eq _ hft0 hft1, packU8_eq _ hns0 hns1,
      hblat, hblon, packU16_eq _ halt0 halt1, packU16_eq _ hsp0 hsp1,
      packU16_eq _ hgc0 hgc1, packU16_eq _ hhd0 hhd1]
    simp [hblatlen, hblonlen]
  · simp [hblatlen, hblonlen]

/-- A concrete MSPGPSData, the dataclass defaults. -/
def sampleGPS : MSPGPSData :=
  { fix_type := 2, num_sats := 10, lat := 0, lon := 0, alt := 0,
    speed := 0, ground_course := 0, hdop := 100 }

/-- Witness for C4 at the dataclass defaults. -/
theorem msp_frame_length_and_checksum_witness :
    ∃ payload : List Nat, payload.length = 18 ∧
      encode_set_raw_gps sampleGPS =
        some ([36, 77, 60] ++ [18, MSP_SET_RAW_GPS] ++ payload ++
          [msp_checksum ([18, MSP_SET_RAW_GPS] ++ payload)]) ∧
      ([36, 77, 60] ++ [18, MSP_SET_RAW_GPS] ++ payload ++
          [msp_checksum ([18, MSP_SET_RAW_GPS] ++ payload)]).length = 24 :=
  msp_frame_length_and_checksum sampleGPS (by norm_num [sampleGPS]) (by norm_num [sampleGPS])
    (by norm_num [sampleGPS]) (by norm_num [sampleGPS]) (by norm_num [sampleGPS])
    (by norm_num [sampleGPS]) (by norm_num [sampleGPS]) (by norm_num [sampleGPS])
    (by norm_num [sampleGPS]) (by norm_num [sampleGPS]) (by norm_num [sampleGPS])
    (by norm_num [sampleGPS]) (by norm_num [sampleGPS]) (by norm_num [sampleGPS])

end Msp

namespace Recorder

/-- One field of a struct format string. -/
inductive StructField
  | dbl
  | flt
  | u8
  | u16
deriving DecidableEq

/-- Standard (unaligned) size of a struct field under the "<" prefix. -/
def fieldSize : StructField → Nat
  | .dbl => 8
  | .flt => 4
  | .u8 => 1
  | .u16 => 2

/-- RECORD_FMT = "<3d5fBBHfHH" (src/onboard/flight_recorder.py line 21),
expanded field by field: 3 doubles, 5 floats, B, B, H, f, H, H. -/
def RECORD_FMT : List StructField :=
  [.dbl, .dbl, .dbl, .flt, .flt, .flt, .flt, .flt, .u8, .u8, .u16, .flt, .u16, .u16]

/-- struct.calcsize for a "<"-prefixed format: sum of standard sizes,
no alignment padding. -/
def structCalcsize (fmt : List StructField) : Nat := (fmt.map fieldSize).sum

/-- RECORD_SIZE = struct.calcsize(RECORD_FMT) (flight_recorder.py line 22). -/
def RECORD_SIZE : Nat := structCalcsize RECORD_FMT

/-- HEADER_VERSION (flight_recorder.py line 25). -/
def HEADER_VERSION : Nat := 2

/-- Little-endian bytes of an unsigned 16-bit value. -/
def u16leN (v : Nat) : List Nat := [v % 256, v / 256 % 256]

/-- Little-endian bytes of an unsigned 32-bit value. -/
def u32leN (v : Nat) : List Nat :=
  [v % 256, v / 256 % 256, v / 65536 % 256, v / 16777216 % 256]

/-- Little-endian bytes of an unsigned 64-bit value. -/
def u64leN (v : Nat) : List Nat :=
  [v % 256, v / 256 % 256, v / 65536 % 256, v / 16777216 % 256,
   v / 4294967296 % 256, v / 1099511627776 % 256,
   v / 281474976710656 % 256, v / 72057594037927936 % 256]

/-- FlightRecord (flight_recorder.py lines 48-64).  The float fields are
modelled by their IEEE-754 bit patterns (binary64 for the doubles,
binary32 for the floats), since struct.pack writes exactly those bytes. -/
structure FlightRecord where
  timestamp : Nat
  lat : Nat
  lon : Nat
  vn_mps : Nat
  ve_mps : Nat
  hdop : Nat
  speed_mps : Nat
  heading_deg : Nat
  fix_quality : Nat
  source : Nat
  match_count : Nat
  inlier_ratio : Nat
  latency_ms : Nat
  flags : Nat

/-- Range check performed by struct.pack: every field must fit its wire
type, else struct.error is raised. -/
def FlightRecord.inRange (r : FlightRecord) : Prop :=
  r.timestamp < 2 ^ 64 ∧ r.lat < 2 ^ 64 ∧ r.lon < 2 ^ 64 ∧
  r.vn_mps < 2 ^ 32 ∧ r.ve_mps < 2 ^ 32 ∧ r.hdop < 2 ^ 32 ∧
  r.speed_mps < 2 ^ 32 ∧ r.heading_deg < 2 ^ 32 ∧
  r.fix_quality < 256 ∧ r.source < 256 ∧ r.match_count < 65536 ∧
  r.inlier_ratio < 2 ^ 32 ∧ r.latency_ms < 65536 ∧ r.flags < 65536

instance (r : FlightRecord) : Decidable r.inRange := by
  unfold FlightRecord.inRange
  infer_instance

/-- FlightRecord.pack (flight_recorder.py lines 66-75): struct.pack of all
fourteen fields in RECORD_FMT order; none when a field is out of range. -/
def FlightRecord.pack (r : FlightRecord) : Option (List Nat) :=
  if r.inRange then
    some (u64leN r.timestamp ++ u64leN r.lat ++ u64leN r.lon ++
      u32leN r.vn_mps ++ u32leN r.ve_mps ++ u32leN r.hdop ++
      u32leN r.speed_mps ++ u32leN r.heading_deg ++
      [r.fix_quality] ++ [r.source] ++ u16leN r.match_count ++
      u32leN r.inlier_ratio ++ u16leN r.latency_ms ++ u16leN r.flags)
  else none

/-- Header written by FlightRecorder.start (flight_recorder.py line 119):
struct.pack("<4sHH", b"VPSF", HEADER_VERSION, RECORD_SIZE).
Byte values of "VPSF" are 86, 80, 83, 70. -/
def headerBytes : List Nat :=
  [86, 80, 83, 70] ++ u16leN HEADER_VERSION ++ u16leN RECORD_SIZE

/-- A concrete FlightRecord (all-zero bit patterns, quality 1, visual). -/
def sampleRecord : FlightRecord :=
  { timestamp := 0, lat := 0, lon := 0, vn_mps := 0, ve_mps := 0, hdop := 0,
    speed_mps := 0, heading_deg := 0, fix_quality := 1, source := 1,
    match_count := 12, inlier_ratio := 0, latency_ms := 50, flags := 3 }

/-- C3 counterexample: at a concrete record, FlightRecord.pack yields 56
bytes, not 58, and RECORD_SIZE (the u16 record-size field written in the
file header) is 56, not 58. -/
theorem record_size_is_56_not_58 :
    (sampleRecord.pack).map List.length = some 56 ∧
    RECORD_SIZE = 56 ∧ ¬ RECORD_SIZE = 58 ∧
    headerBytes = [86, 80, 83, 70, 2, 0, 56, 0] := by
  decide

/-- C3 amended: every in-range FlightRecord packs to exactly 56 bytes
(struct.calcsize of "<3d5fBBHfHH" is 56), and the u16 record-size field
written in the file header equals 56. -/
theorem record_size_amended (r : FlightRecord) (h : r.inRange) :
    ∃ bs, r.pack = some bs ∧ bs.length = 56 ∧ RECORD_SIZE = 56 ∧
      headerBytes = [86, 80, 83, 70, 2, 0, 56, 0] := by
  refine ⟨_, by rw [FlightRecord.pack, if_pos h], ?_, by decide, by decide⟩
  simp [u64leN, u32leN, u16leN]

/-- Witness for C3's amended theorem at the concrete record. -/
theorem record_size_amended_witness :
    ∃ bs, sampleRecord.pack = some bs ∧ bs.length = 56 ∧ RECORD_SIZE = 56 ∧
      headerBytes = [86, 80, 83, 70, 2, 0, 56, 0] :=
  record_size_amended sampleRecord (by decide)

end Recorder

namespace TileMath

open Real

/-- WGS84 coordinate (src/shared/tile_math.py, GeoPoint).  Python floats
are modelled as real numbers. -/
@[ext]
structure GeoPoint where
  lat : ℝ
  lon : ℝ

/-- Tile index at a given zoom level (tile_math.py, TileCoord). -/
structure TileCoord where
  z : ℕ
  x : ℤ
  y : ℤ

/-- Pixel position within a specific tile (tile_math.py, TilePixel). -/
structure TilePixel where
  tile : TileCoord
  px : ℝ
  py : ℝ

/-- Python int() on a float: truncation toward zero. -/
noncomputable def pyInt (x : ℝ) : ℤ := if 0 ≤ x then ⌊x⌋ else ⌈x⌉

/-- gps_to_tile_pixel (tile_math.py lines 57-77): Web Mercator projection
of a GPS point to its tile and subtile pixel; the tile index is
int-truncated and clamped to [0, 2^z - 1]. -/
noncomputable def gps_to_tile_pixel (point : GeoPoint) (zoom : ℕ) : TilePixel :=
  let n : ℝ := 2 ^ zoom
  let x_float := (point.lon + 180) / 360 * n
  let lat_rad := point.lat * π / 180
  let y_float := (1 - arsinh (tan lat_rad) / π) / 2 * n
  let nInt : ℤ := 2 ^ zoom
  let tile_x := max 0 (min (nInt - 1) (pyInt x_float))
  let tile_y := max 0 (min (nInt - 1) (pyInt y_float))
  { tile := { z := zoom, x := tile_x, y := tile_y },
    px := (x_float - tile_x) * 256,
    py := (y_float - tile_y) * 256 }

/-- tile_pixel_to_gps (tile_math.py lines 80-87): inverse Web Mercator
from tile + pixel offset back to GPS. -/
noncomputable def tile_pixel_to_gps (tile : TileCoord) (px py : ℝ) : GeoPoint :=
  let n : ℝ := 2 ^ tile.z
  { lat := arctan (Real.sinh (π * (1 - 2 * (tile.y + py / 256) / n))) * 180 / π,
    lon := (tile.x + px / 256) / n * 360 - 180 }

/-- haversine_km (tile_math.py lines 124-134): great-circle distance with
Earth radius 6371 km. -/
noncomputable def haversine_km (a b : GeoPoint) : ℝ :=
  let lat1 := a.lat * π / 180
  let lat2 := b.lat * π / 180
  let dlat := lat2 - lat1
  let dlon := (b.lon - a.lon) * π / 180
  let h := Real.sin (dlat / 2) ^ 2 +
    Real.cos lat1 * Real.cos lat2 * Real.sin (dlon / 2) ^ 2
  2 * 6371 * arcsin (Real.sqrt h)

theorem haversine_self (p : GeoPoint) : haversine_km p p = 0 := by
  simp [haversine_km]

/-- The round trip is the exact identity: the inverse reads back
tile + px/256 = x_float regardless of clamping, and the Mercator maps
invert via sinh_arsinh and arctan_tan for latitudes in (-90, 90). -/
theorem pixel_readback (a b : ℝ) : a + (b - a) * 256 / 256 = b := by ring

theorem tile_roundtrip_exact (p : GeoPoint) (zoom : ℕ)
    (h1 : -85 < p.lat) (h2 : p.lat < 85) :
    tile_pixel_to_gps (gps_to_tile_pixel p zoom).tile
      (gps_to_tile_pixel p zoom).px (gps_to_tile_pixel p zoom).py = p := by
  have hpi := Real.pi_pos
  have hn : (2 : ℝ) ^ zoom ≠ 0 := by positivity
  have hrad1 : -(π / 2) < p.lat * π / 180 := by nlinarith
  have hrad2 : p.lat * π / 180 < π / 2 := by nlinarith
  ext
  · simp only [gps_to_tile_pixel, tile_pixel_to_gps]
    rw [pixel_readback]
    have harg : π * (1 - 2 * ((1 - arsinh (tan (p.lat * π / 180)) / π) / 2 * 2 ^ zoom) / 2 ^ zoom) =
        arsinh (tan (p.lat * π / 180)) := by
      field_simp
      ring
    rw [harg, sinh_arsinh, arctan_tan hrad1 hrad2]
    field_simp
  · simp only [gps_to_tile_pixel, tile_pixel_to_gps]
    rw [pixel_readback]
    field_simp
    ring

/-- C5: for every GeoPoint with latitude in (-85, 85) and zoom in [0, 20],
converting to tile + pixel and back yields a point within 1 meter
(0.001 km great-circle) of the original; in fact the round trip is exact. -/
theorem tile_roundtrip_within_1m (p : GeoPoint) (zoom : ℕ) (hz : zoom ≤ 20)
    (h1 : -85 < p.lat) (h2 : p.lat < 85) :
    haversine_km (tile_pixel_to_gps (gps_to_tile_pixel p zoom).tile
      (gps_to_tile_pixel p zoom).px (gps_to_tile_pixel p zoom).py) p ≤ 0.001 := by
  rw [tile_roundtrip_exact p zoom h1 h2, haversine_self]
  norm_num

/-- Witness for C5 at the geofence demo point (52.52, 13.405), zoom 19. -/
theorem tile_roundtrip_within_1m_witness :
    haversine_km (tile_pixel_to_gps (gps_to_tile_pixel { lat := 52.52, lon := 13.405 } 19).tile
      (gps_to_tile_pixel { lat := 52.52, lon := 13.405 } 19).px
      (gps_to_tile_pixel { lat := 52.52, lon := 13.405 } 19).py)
      { lat := 52.52, lon := 13.405 } ≤ 0.001 :=
  tile_roundtrip_within_1m { lat := 52.52, lon := 13.405 } 19 (by norm_num)
    (by norm_num) (by norm_num)

end TileMath

namespace DeadReck

open Real

/-- DeadReckoningState (src/onboard/dead_reckoning.py lines 21-29). -/
structure DeadReckoningState where
  last_fix : TileMath.GeoPoint
  last_fix_time : ℝ
  velocity_north_mps : ℝ
  velocity_east_mps : ℝ
  max_extrapolation_s : ℝ
  base_hdop : ℝ

/-- DeadReckoning (dead_reckoning.py lines 32-48): configured limits plus
an optional reference state. -/
structure DeadReckoning where
  max_extrap : ℝ
  hdop_rate : ℝ
  state : Option DeadReckoningState

/-- update_reference (dead_reckoning.py lines 50-69): replace the
reference state atomically. -/
def update_reference (dr : DeadReckoning) (position : TileMath.GeoPoint)
    (vn_mps ve_mps hdop t : ℝ) : DeadReckoning :=
  { dr with state := some ⟨position, t, vn_mps, ve_mps, dr.max_extrap, hdop⟩ }

/-- extrapolate (dead_reckoning.py lines 71-101): None when unreferenced,
when dt is negative, or when dt exceeds the window; otherwise the
constant-velocity position and hdop = base_hdop + rate * dt. -/
noncomputable def extrapolate (dr : DeadReckoning) (t : ℝ) :
    Option (TileMath.GeoPoint × ℝ) :=
  match dr.state with
  | none => none
  | some s =>
    let dt := t - s.last_fix_time
    if dt < 0 ∨ dt > s.max_extrapolation_s then none
    else
      let lat := s.last_fix.lat
      let dlat := s.velocity_north_mps * dt / 111320
      let dlon := s.velocity_east_mps * dt / (111320 * Real.cos (lat * π / 180))
      some ({ lat := lat + dlat, lon := s.last_fix.lon + dlon },
        s.base_hdop + dr.hdop_rate * dt)

/-- C7: extrapolate returns None exactly off-reference or out of window;
in the window it returns the constant-velocity point with
hdop = base_hdop + hdop_growth_rate * dt, hence for positive growth rate
the hdop strictly increases between two in-window times. -/
theorem dead_reckoning_extrapolate_spec (dr : DeadReckoning) :
    (∀ t, dr.state = none → extrapolate dr t = none) ∧
    (∀ t s, dr.state = some s →
      (t - s.last_fix_time < 0 ∨ t - s.last_fix_time > s.max_extrapolation_s) →
      extrapolate dr t = none) ∧
    (∀ t s, dr.state = some s → 0 ≤ t - s.last_fix_time →
      t - s.last_fix_time ≤ s.max_extrapolation_s →
      extrapolate dr t = some
        ({ lat := s.last_fix.lat + s.velocity_north_mps * (t - s.last_fix_time) / 111320,
           lon := s.last_fix.lon + s.velocity_east_mps * (t - s.last_fix_time) /
             (111320 * Real.cos (s.last_fix.lat * π / 180)) },
         s.base_hdop + dr.hdop_rate * (t - s.last_fix_time))) ∧
    (∀ t1 t2 s, dr.state = some s → 0 < dr.hdop_rate →
      0 ≤ t1 - s.last_fix_time → t2 - s.last_fix_time ≤ s.max_extrapolation_s →
      t1 < t2 → ∀ p1 d1 p2 d2, extrapolate dr t1 = some (p1, d1) →
      extrapolate dr t2 = some (p2, d2) → d1 < d2) := by
  have hwin : ∀ t s, dr.state = some s → 0 ≤ t - s.last_fix_time →
      t - s.last_fix_time ≤ s.max_extrapolation_s →
      extrapolate dr t = some
        ({ lat := s.last_fix.lat + s.velocity_north_mps * (t - s.last_fix_time) / 111320,
           lon := s.last_fix.lon + s.velocity_east_mps * (t - s.last_fix_time) /
             (111320 * Real.cos (s.last_fix.lat * π / 180)) },
         s.base_hdop + dr.hdop_rate * (t - s.last_fix_time)) := by
    intro t s hs h0 h1
    simp only [extrapolate, hs]
    rw [if_neg]
    push_neg
    exact ⟨by linarith, by linarith⟩
  refine ⟨?_, ?_, hwin, ?_⟩
  · intro t hs
    simp only [extrapolate, hs]
  · intro t s hs hout
    simp only [extrapolate, hs]
    rw [if_pos hout]
  · intro t1 t2 s hs hrate h0 h1 hlt p1 d1 p2 d2 he1 he2
    have h02 : 0 ≤ t2 - s.last_fix_time := by linarith
    have h11 : t1 - s.last_fix_time ≤ s.max_extrapolation_s := by linarith
    have hw1 := hwin t1 s hs h0 h11
    have hw2 := hwin t2 s hs h02 h1
    rw [hw1] at he1
    rw [hw2] at he2
    have hd1 : d1 = s.base_hdop + dr.hdop_rate * (t1 - s.last_fix_time) :=
      ((Prod.mk.injEq _ _ _ _).mp (Option.some.injEq _ _ ▸ he1)).2.symm
    have hd2 : d2 = s.base_hdop + dr.hdop_rate * (t2 - s.last_fix_time) :=
      ((Prod.mk.injEq _ _ _ _).mp (Option.some.injEq _ _ ▸ he2)).2.symm
    rw [hd1, hd2]
    nlinarith

/-- A concrete dead-reckoning instance: reference at (52, 13), 1 m/s
north, growth rate 1, window 10 s. -/
noncomputable def sampleDR : DeadReckoning :=
  { max_extrap := 10, hdop_rate := 1,
    state := some
      { last_fix := { lat := 52, lon := 13 }, last_fix_time := 0,
        velocity_north_mps := 1, velocity_east_mps := 0,
        max_extrapolation_s := 10, base_hdop := 2 } }

/-- Witness for C7: at t1 = 1 and t2 = 2 the extrapolated hdop values are
2 + 1 and 2 + 2, and the former is smaller. -/
theorem dead_reckoning_extrapolate_spec_witness :
    extrapolate sampleDR 1 = some
      (⟨52 + 1 * (1 - 0) / 111320, 13 + 0 * (1 - 0) / (111320 * Real.cos (52 * π / 180))⟩,
        2 + 1 * (1 - 0)) ∧
    extrapolate sampleDR 2 = some
      (⟨52 + 1 * (2 - 0) / 111320, 13 + 0 * (2 - 0) / (111320 * Real.cos (52 * π / 180))⟩,
        2 + 1 * (2 - 0)) ∧
    (2 + 1 * (1 - 0) : ℝ) < 2 + 1 * (2 - 0) := by
  refine ⟨?_, ?_, by norm_num⟩
  · exact (dead_reckoning_extrapolate_spec sampleDR).2.2.1 1 _ rfl
      (by norm_num) (by norm_num)
  · exact (dead_reckoning_extrapolate_spec sampleDR).2.2.1 2 _ rfl
      (by norm_num) (by norm_num)

end DeadReck

namespace Cache

/-- TileCache (src/onboard/tile_cache.py lines 22-33): an OrderedDict is
modelled as an association list, front = least recently used, back = most
recently used (popitem(last=False) pops the front). -/
structure TileCache (K V : Type) where
  max : ℕ
  cache : List (K × V)
  hits : ℕ
  misses : ℕ

/-- The eviction loop of get (tile_cache.py lines 54-56):
`while len(cache) > max: popitem(last=False)`. -/
def evictLoop {K V : Type} (max : ℕ) : List (K × V) → List (K × V)
  | [] => []
  | x :: xs => if max < (x :: xs).length then evictLoop max xs else x :: xs

/-- TileCache.get (tile_cache.py lines 34-58): on a hit, bump the hit
counter, move the entry to the most-recent end and return its value; on a
miss, read from disk (cv2.imread, modelled by the `disk` map); on a failed
read return none unchanged; on a successful read insert at the
most-recent end and evict from the least-recent end while over capacity. -/
def get {K V : Type} [DecidableEq K] (disk : K → Option V)
    (c : TileCache K V) (k : K) : Option V × TileCache K V :=
  match c.cache.find? (fun e => decide (e.1 = k)) with
  | some e =>
    (some e.2,
      { c with
        hits := c.hits + 1,
        cache := c.cache.filter (fun x => decide (x.1 ≠ k)) ++ [(k, e.2)] })
  | none =>
    match disk k with
    | none => (none, { c with misses := c.misses + 1 })
    | some img =>
      (some img,
        { c with
          misses := c.misses + 1,
          cache := evictLoop c.max (c.cache ++ [(k, img)]) })

theorem evictLoop_of_le {K V : Type} (max : ℕ) (l : List (K × V))
    (h : l.length ≤ max) : evictLoop max l = l := by
  cases l with
  | nil => rfl
  | cons x xs =>
    rw [evictLoop, if_neg]
    omega

theorem evictLoop_length_le {K V : Type} (max : ℕ) (l : List (K × V)) :
    (evictLoop max l).length ≤ max := by
  induction l with
  | nil => simp [evictLoop]
  | cons x xs ih =>
    rw [evictLoop]
    by_cases h : max < (x :: xs).length
    · rw [if_pos h]
      exact ih
    · rw [if_neg h]
      omega

theorem evictLoop_cons {K V : Type} (max : ℕ) (x : K × V) (xs : List (K × V)) :
    evictLoop max (x :: xs) =
      if max < (x :: xs).length then evictLoop max xs else x :: xs := rfl

theorem filter_ne_length {K V : Type} [DecidableEq K] (l : List (K × V)) (k : K)
    (hnd : (l.map Prod.fst).Nodup)
    (hfind : (l.find? (fun e => decide (e.1 = k))).isSome) :
    (l.filter (fun x => decide (x.1 ≠ k))).length + 1 = l.length := by
  induction l with
  | nil => simp [List.find?] at hfind
  | cons h t ih =>
    rw [List.map_cons, List.nodup_cons] at hnd
    by_cases hk : h.1 = k
    · have hall : t.filter (fun x => decide (x.1 ≠ k)) = t := by
        rw [List.filter_eq_self]
        intro a ha
        simp only [decide_eq_true_eq]
        intro hak
        apply hnd.1
        rw [hk, ← hak]
        exact List.mem_map_of_mem Prod.fst ha
      rw [List.filter_cons, if_neg (by simp [hk]), hall, List.length_cons]
    · have hfind2 : (t.find? (fun e => decide (e.1 = k))).isSome := by
        simpa [List.find?_cons, hk] using hfind
      rw [List.filter_cons, if_pos (by simp [hk]), List.length_cons, List.length_cons]
      have := ih hnd.2 hfind2
      omega

/-- C8: a hit moves the accessed entry to the most-recently-used end and
leaves the size unchanged; a miss that loads successfully inserts the
entry as most-recently-used, evicting exactly the least-recently-used
entry when the cache was full; and the size never exceeds max_tiles. -/
theorem tile_cache_lru {K V : Type} [DecidableEq K] (disk : K → Option V)
    (c : TileCache K V) (k : K)
    (hnd : (c.cache.map Prod.fst).Nodup)
    (hlen : c.cache.length ≤ c.max) (hmax : 1 ≤ c.max) :
    (∀ e, c.cache.find? (fun x => decide (x.1 = k)) = some e →
      (get disk c k).1 = some e.2 ∧
      (get disk c k).2.cache =
        c.cache.filter (fun x => decide (x.1 ≠ k)) ++ [(k, e.2)] ∧
      (get disk c k).2.cache.length = c.cache.length) ∧
    (∀ img, c.cache.find? (fun x => decide (x.1 = k)) = none →
      disk k = some img →
      (get disk c k).2.cache =
        (if c.cache.length = c.max then c.cache.tail ++ [(k, img)]
         else c.cache ++ [(k, img)])) ∧
    (get disk c k).2.cache.length ≤ c.max := by
  refine ⟨?_, ?_, ?_⟩
  · intro e he
    have hlen1 : (c.cache.filter (fun x => decide (x.1 ≠ k))).length + 1 =
        c.cache.length := filter_ne_length c.cache k hnd (by rw [he]; rfl)
    refine ⟨?_, ?_, ?_⟩
    · simp [get, he]
    · simp [get, he]
    · simp only [get, he]
      simp only [List.length_append, List.length_cons, List.length_nil]
      omega
  · intro img hnone hdisk
    simp only [get, hnone, hdisk]
    by_cases hfull : c.cache.length = c.max
    · rw [if_pos hfull]
      cases hc : c.cache with
      | nil =>
        rw [hc] at hfull
        simp only [List.length_nil] at hfull
        omega
      | cons x xs =>
        rw [hc] at hfull
        simp only [List.length_cons] at hfull
        rw [List.cons_append, evictLoop_cons, if_pos (by simp; omega),
          evictLoop_of_le, List.tail_cons]
        simp only [List.length_append, List.length_cons, List.length_nil]
        omega
    · rw [if_neg hfull]
      rw [evictLoop_of_le]
      simp only [List.length_append, List.length_cons, List.length_nil]
      omega
  · rcases hfind : c.cache.find? (fun x => decide (x.1 = k)) with _ | e
    · rcases hdisk : disk k with _ | img
      · simp only [get, hfind, hdisk]
        exact hlen
      · simp only [get, hfind, hdisk]
        exact evictLoop_length_le c.max _
    · have hlen1 : (c.cache.filter (fun x => decide (x.1 ≠ k))).length + 1 =
        c.cache.length := filter_ne_length c.cache k hnd (by rw [hfind]; rfl)
      simp only [get, hfind]
      simp only [List.length_append, List.length_cons, List.length_nil]
      omega

/-- A concrete full cache of capacity 2 holding keys 1 (LRU) and 2 (MRU). -/
def sampleCache : TileCache ℕ ℕ :=
  { max := 2, cache := [(1, 10), (2, 20)], hits := 0, misses := 0 }

/-- Witness for C8: inserting key 3 into the full sample cache evicts
exactly the least-recently-used entry (1, 10). -/
theorem tile_cache_lru_witness :
    (get (fun k => some (k * 10)) sampleCache 3).2.cache = [(2, 20), (3, 30)] := by
  have h := (tile_cache_lru (fun k => some (k * 10)) sampleCache 3
    (by decide) (by decide) (by decide)).2.1 30 (by decide) (by decide)
  rw [h]
  decide

end Cache

namespace RateLim

/-- RateLimiterStats (src/onboard/rate_limiter.py lines 13-19). -/
structure RateLimiterStats where
  total_requests : ℕ
  accepted : ℕ
  throttled : ℕ
  actual_hz : ℚ
deriving DecidableEq

/-- RateLimiter state (rate_limiter.py lines 22-39).  Python floats are
modelled as exact rationals. -/
structure RateLimiter where
  max_hz : ℚ
  burst : ℕ
  tokens : ℚ
  last_t : ℚ
  last_accept_t : ℚ
  stats : RateLimiterStats
  accept_times : List ℚ
deriving DecidableEq

/-- The constructor (rate_limiter.py lines 31-39): tokens start at the
burst size, last_t at 0. -/
def mkRateLimiter (max_hz : ℚ) (burst : ℕ) : RateLimiter :=
  { max_hz := max_hz, burst := burst, tokens := burst, last_t := 0,
    last_accept_t := 0, stats := ⟨0, 0, 0, 0⟩, accept_times := [] }

/-- RateLimiter.allow (rate_limiter.py lines 49-85): replenish tokens at
max_hz per second (only when last_t > 0), cap at burst, update last_t,
then consume one token if at least one is available; maintain stats and
the trailing accept-time window. -/
def allow (rl : RateLimiter) (t : ℚ) : Bool × RateLimiter :=
  let stats0 : RateLimiterStats :=
    { rl.stats with total_requests := rl.stats.total_requests + 1 }
  let tokens1 : ℚ :=
    if 0 < rl.last_t then
      min (rl.burst : ℚ) (rl.tokens + (t - rl.last_t) * rl.max_hz)
    else rl.tokens
  if 1 ≤ tokens1 then
    let at1 := rl.accept_times ++ [t]
    let at2 := if 20 < at1.length then at1.drop (at1.length - 10) else at1
    let hz1 : ℚ :=
      if 2 ≤ at2.length then
        (if 0 < at2.getLastD 0 - at2.headD 0 then
          ((at2.length : ℚ) - 1) / (at2.getLastD 0 - at2.headD 0)
        else stats0.actual_hz)
      else stats0.actual_hz
    (true,
      { rl with
        tokens := tokens1 - 1,
        last_t := t,
        last_accept_t := t,
        stats := { stats0 with accepted := stats0.accepted + 1, actual_hz := hz1 },
        accept_times := at2 })
  else
    (false,
      { rl with
        tokens := tokens1,
        last_t := t,
        stats := { stats0 with throttled := stats0.throttled + 1 } })

/-- State after n uniformly spaced allow calls at times 0, d, 2d, .... -/
def runUniform (rl : RateLimiter) (d : ℚ) : ℕ → RateLimiter
  | 0 => rl
  | n + 1 => (allow (runUniform rl d n) (n * d)).2

theorem allow_accept_eq (rl : RateLimiter) (t : ℚ) (hlast : 0 < rl.last_t)
    (hge : 1 ≤ min (rl.burst : ℚ) (rl.tokens + (t - rl.last_t) * rl.max_hz)) :
    (allow rl t).1 = true ∧
    (allow rl t).2.tokens =
      min (rl.burst : ℚ) (rl.tokens + (t - rl.last_t) * rl.max_hz) - 1 ∧
    (allow rl t).2.stats.accepted = rl.stats.accepted + 1 ∧
    (allow rl t).2.last_t = t ∧
    (allow rl t).2.max_hz = rl.max_hz ∧ (allow rl t).2.burst = rl.burst := by
  simp only [allow, if_pos hlast, if_pos hge]
  simp

theorem allow_reject_eq (rl : RateLimiter) (t : ℚ) (hlast : 0 < rl.last_t)
    (hlt : ¬ 1 ≤ min (rl.burst : ℚ) (rl.tokens + (t - rl.last_t) * rl.max_hz)) :
    (allow rl t).1 = false ∧
    (allow rl t).2.tokens =
      min (rl.burst : ℚ) (rl.tokens + (t - rl.last_t) * rl.max_hz) ∧
    (allow rl t).2.stats.accepted = rl.stats.accepted ∧
    (allow rl t).2.last_t = t ∧
    (allow rl t).2.max_hz = rl.max_hz ∧ (allow rl t).2.burst = rl.burst := by
  simp only [allow, if_pos hlast, if_neg hlt]
  simp

theorem allow_noreplenish_accept (rl : RateLimiter) (t : ℚ)
    (hlast : ¬ 0 < rl.last_t) (hge : 1 ≤ rl.tokens) :
    (allow rl t).1 = true ∧
    (allow rl t).2.tokens = rl.tokens - 1 ∧
    (allow rl t).2.stats.accepted = rl.stats.accepted + 1 ∧
    (allow rl t).2.last_t = t ∧
    (allow rl t).2.max_hz = rl.max_hz ∧ (allow rl t).2.burst = rl.burst := by
  simp only [allow, if_neg hlast, if_pos hge]
  simp

theorem allow_noreplenish_reject (rl : RateLimiter) (t : ℚ)
    (hlast : ¬ 0 < rl.last_t) (hlt : ¬ 1 ≤ rl.tokens) :
    (allow rl t).1 = false ∧
    (allow rl t).2.tokens = rl.tokens ∧
    (allow rl t).2.stats.accepted = rl.stats.accepted ∧
    (allow rl t).2.last_t = t ∧
    (allow rl t).2.max_hz = rl.max_hz ∧ (allow rl t).2.burst = rl.burst := by
  simp only [allow, if_neg hlast, if_neg hlt]
  simp

/-- The state invariant of the uniform 10x-rate run, after n >= 2 calls:
token conservation, token bounds, the 1/10-grid, the bookkeeping fields,
and the drain bound. -/
def rlInv (H : ℚ) (b n : ℕ) : Prop :=
  let s := runUniform (mkRateLimiter H b) (1 / (10 * H)) n
  (s.stats.accepted : ℚ) + s.tokens = (b : ℚ) + ((n : ℚ) - 2) / 10 ∧
  0 ≤ s.tokens ∧
  s.tokens ≤ (b : ℚ) - 1 / 10 ∧
  (∃ m : ℕ, s.tokens = (m : ℚ) / 10) ∧
  s.last_t = ((n : ℚ) - 1) * (1 / (10 * H)) ∧
  s.max_hz = H ∧ s.burst = b ∧
  (s.tokens < 1 ∨ s.tokens ≤ (b : ℚ) - 1 - (9 / 10) * ((n : ℚ) - 2))

theorem runUniform_zero (rl : RateLimiter) (d : ℚ) : runUniform rl d 0 = rl := rfl

theorem runUniform_succ (rl : RateLimiter) (d : ℚ) (n : ℕ) :
    runUniform rl d (n + 1) = (allow (runUniform rl d n) (n * d)).2 := rfl

theorem rlInv_base (H : ℚ) (b : ℕ) (hH : 0 < H) (hb : 1 ≤ b) : rlInv H b 2 := by
  have hb1 : (1 : ℚ) ≤ (b : ℚ) := by exact_mod_cast hb
  have e2 : runUniform (mkRateLimiter H b) (1 / (10 * H)) 2 =
      (allow (allow (mkRateLimiter H b) (((0 : ℕ) : ℚ) * (1 / (10 * H)))).2
        (((1 : ℕ) : ℚ) * (1 / (10 * H)))).2 := rfl
  have h0 : ¬ (0 : ℚ) < (mkRateLimiter H b).last_t := by
    simp [mkRateLimiter]
  have h1 := allow_noreplenish_accept (mkRateLimiter H b) (((0 : ℕ) : ℚ) * (1 / (10 * H)))
    h0 (by simpa [mkRateLimiter] using hb1)
  set s1 := (allow (mkRateLimiter H b) (((0 : ℕ) : ℚ) * (1 / (10 * H)))).2 with hs1
  have hs1tok : s1.tokens = (b : ℚ) - 1 := by
    simpa [mkRateLimiter] using h1.2.1
  have hs1acc : s1.stats.accepted = 1 := by
    simpa [mkRateLimiter] using h1.2.2.1
  have hs1last : ¬ (0 : ℚ) < s1.last_t := by
    rw [h1.2.2.2.1]
    simp
  have hs1hz : s1.max_hz = H := by
    simpa [mkRateLimiter] using h1.2.2.2.2.1
  have hs1b : s1.burst = b := by
    simpa [mkRateLimiter] using h1.2.2.2.2.2
  by_cases h2b : 2 ≤ b
  · have hq2 : (2 : ℚ) ≤ (b : ℚ) := by exact_mod_cast h2b
    have hge : 1 ≤ s1.tokens := by
      rw [hs1tok]
      linarith
    have h2 := allow_noreplenish_accept s1 (((1 : ℕ) : ℚ) * (1 / (10 * H))) hs1last hge
    simp only [rlInv, e2, ← hs1]
    rw [h2.2.1, h2.2.2.1, h2.2.2.2.1, h2.2.2.2.2.1, h2.2.2.2.2.2,
      hs1tok, hs1acc, hs1hz, hs1b]
    refine ⟨by push_cast; ring, by linarith, by linarith, ?_, by push_cast; ring,
      rfl, rfl, Or.inr (by push_cast; linarith)⟩
    refine ⟨10 * (b - 2), ?_⟩
    have : ((10 * (b - 2) : ℕ) : ℚ) = 10 * ((b : ℚ) - 2) := by
      push_cast [Nat.cast_sub h2b]
      ring
    rw [this]
    ring
  · have hb1' : b = 1 := by omega
    have hlt : ¬ 1 ≤ s1.tokens := by
      rw [hs1tok, hb1']
      norm_num
    have h2 := allow_noreplenish_reject s1 (((1 : ℕ) : ℚ) * (1 / (10 * H))) hs1last hlt
    simp only [rlInv, e2, ← hs1]
    rw [h2.2.1, h2.2.2.1, h2.2.2.2.1, h2.2.2.2.2.1, h2.2.2.2.2.2,
      hs1tok, hs1acc, hs1hz, hs1b, hb1']
    refine ⟨by push_cast; ring, by norm_num, by norm_num, ⟨0, by norm_num⟩,
      by push_cast; ring, rfl, rfl, Or.inl (by norm_num)⟩

theorem rlInv_step (H : ℚ) (b : ℕ) (hH : 0 < H) (hb : 1 ≤ b) (n : ℕ) (hn : 2 ≤ n)
    (ih : rlInv H b n) : rlInv H b (n + 1) := by
  have hb1 : (1 : ℚ) ≤ (b : ℚ) := by exact_mod_cast hb
  have hnq : (2 : ℚ) ≤ (n : ℚ) := by exact_mod_cast hn
  have hHne : H ≠ 0 := ne_of_gt hH
  set d : ℚ := 1 / (10 * H) with hd
  have hdpos : 0 < d := by
    rw [hd]
    positivity
  set s := runUniform (mkRateLimiter H b) d n with hs
  obtain ⟨iA, iB, iC, ⟨m, iD⟩, iE, iHz, iBurst, iF⟩ := ih
  have hlast : 0 < s.last_t := by
    rw [iE]
    have : (0 : ℚ) < (n : ℚ) - 1 := by linarith
    positivity
  have hdH : d * H = 1 / 10 := by
    rw [hd]
    field_simp
    ring
  have hgap : (n : ℚ) * d - s.last_t = d := by
    rw [iE]
    ring
  have hmin : min (s.burst : ℚ) (s.tokens + ((n : ℚ) * d - s.last_t) * s.max_hz) =
      s.tokens + 1 / 10 := by
    rw [hgap, iHz, hdH, iBurst]
    exact min_eq_right (by linarith)
  have e1 : runUniform (mkRateLimiter H b) d (n + 1) = (allow s ((n : ℚ) * d)).2 := by
    rw [runUniform_succ, ← hs]
  by_cases hacc : 1 ≤ s.tokens + 1 / 10
  · have h := allow_accept_eq s ((n : ℚ) * d) hlast (by rw [hmin]; exact hacc)
    have hm9 : 9 ≤ m := by
      have : (9 : ℚ) ≤ (m : ℚ) := by
        rw [iD] at hacc
        linarith
      exact_mod_cast this
    simp only [rlInv, e1]
    rw [h.2.1, h.2.2.1, h.2.2.2.1, h.2.2.2.2.1, h.2.2.2.2.2, hmin, iHz, iBurst]
    refine ⟨by push_cast; linarith, by linarith, by linarith, ?_,
      by push_cast; ring, rfl, rfl, ?_⟩
    · refine ⟨m - 9, ?_⟩
      have : ((m - 9 : ℕ) : ℚ) = (m : ℚ) - 9 := by
        push_cast [Nat.cast_sub hm9]
        ring
      rw [this, iD]
      ring
    · rcases iF with hlt1 | hdrain
      · exact Or.inl (by linarith)
      · exact Or.inr (by push_cast; linarith)
  · have h := allow_reject_eq s ((n : ℚ) * d) hlast (by rw [hmin]; exact hacc)
    push_neg at hacc
    have hm8 : m ≤ 8 := by
      have h9 : (m : ℚ) < 9 := by
        rw [iD] at hacc
        linarith
      have : m < 9 := by exact_mod_cast h9
      omega
    have htok9 : s.tokens + 1 / 10 ≤ 9 / 10 := by
      rw [iD]
      have : (m : ℚ) ≤ 8 := by exact_mod_cast hm8
      linarith
    simp only [rlInv, e1]
    rw [h.2.1, h.2.2.1, h.2.2.2.1, h.2.2.2.2.1, h.2.2.2.2.2, hmin, iHz, iBurst]
    refine ⟨by push_cast; linarith, by linarith, by linarith, ?_,
      by push_cast; ring, rfl, rfl, Or.inl (by linarith)⟩
    refine ⟨m + 1, ?_⟩
    rw [iD]
    push_cast
    ring

theorem rlInv_all (H : ℚ) (b : ℕ) (hH : 0 < H) (hb : 1 ≤ b) :
    ∀ n, 2 ≤ n → rlInv H b n := by
  intro n hn
  induction n, hn using Nat.le_induction with
  | base => exact rlInv_base H b hH hb
  | succ n hn ih => exact rlInv_step H b hH hb n hn ih

/-- C6 amended: the token bucket replenishes at max_hz per second capped
at burst and an accepted allow consumes exactly one token; and for the
uniform 10·H-rate schedule of M calls spaced 1/(10·H) apart (T =
(M-1)/(10·H) seconds), provided the run is long enough to drain the burst
(M ≥ 2·burst + 1), the number of admitted calls is within 1 of
⌊H·T + burst⌋. -/
theorem rate_limiter_throughput (H : ℚ) (b M : ℕ) (hH : 0 < H) (hb : 1 ≤ b)
    (hM : 2 * b + 1 ≤ M) :
    (∀ rl t, 0 < rl.last_t →
      (1 ≤ min (rl.burst : ℚ) (rl.tokens + (t - rl.last_t) * rl.max_hz) →
        (allow rl t).1 = true ∧
        (allow rl t).2.tokens =
          min (rl.burst : ℚ) (rl.tokens + (t - rl.last_t) * rl.max_hz) - 1) ∧
      (¬ 1 ≤ min (rl.burst : ℚ) (rl.tokens + (t - rl.last_t) * rl.max_hz) →
        (allow rl t).1 = false ∧
        (allow rl t).2.tokens =
          min (rl.burst : ℚ) (rl.tokens + (t - rl.last_t) * rl.max_hz))) ∧
    |((runUniform (mkRateLimiter H b) (1 / (10 * H)) M).stats.accepted : ℤ) -
      ⌊(b : ℚ) + H * (((M : ℚ) - 1) * (1 / (10 * H)))⌋| ≤ 1 := by
  have hHne : H ≠ 0 := ne_of_gt hH
  constructor
  · intro rl t hlast
    constructor
    · intro hge
      exact ⟨(allow_accept_eq rl t hlast hge).1, (allow_accept_eq rl t hlast hge).2.1⟩
    · intro hlt
      exact ⟨(allow_reject_eq rl t hlast hlt).1, (allow_reject_eq rl t hlast hlt).2.1⟩
  · have hM2 : 2 ≤ M := by omega
    obtain ⟨iA, iB, iC, ⟨m, iD⟩, iE, iHz, iBurst, iF⟩ := rlInv_all H b hH hb M hM2
    have hb1 : (1 : ℚ) ≤ (b : ℚ) := by exact_mod_cast hb
    have hMq : (2 * (b : ℚ) + 1) ≤ (M : ℚ) := by exact_mod_cast hM
    set s := runUniform (mkRateLimiter H b) (1 / (10 * H)) M with hs
    have htok1 : s.tokens < 1 := by
      rcases iF with h | h
      · exact h
      · linarith
    have hm10 : m < 10 := by
      have : (m : ℚ) < 10 := by
        rw [iD] at htok1
        linarith
      exact_mod_cast this
    have htok9 : s.tokens ≤ 9 / 10 := by
      rw [iD]
      have : (m : ℚ) ≤ 9 := by
        have : m ≤ 9 := by omega
        exact_mod_cast this
      linarith
    have hKeq : (b : ℚ) + H * (((M : ℚ) - 1) * (1 / (10 * H))) =
        (b : ℚ) + ((M : ℚ) - 1) / 10 := by
      field_simp
      ring
    rw [hKeq]
    have hlow : (b : ℚ) + ((M : ℚ) - 1) / 10 - 1 ≤ (s.stats.accepted : ℚ) := by
      linarith
    have hhigh : (s.stats.accepted : ℚ) ≤ (b : ℚ) + ((M : ℚ) - 1) / 10 - 1 / 10 := by
      linarith
    have hup : ((⌊(b : ℚ) + ((M : ℚ) - 1) / 10⌋ : ℤ) : ℚ) ≤
        (b : ℚ) + ((M : ℚ) - 1) / 10 := Int.floor_le _
    have hdown : (b : ℚ) + ((M : ℚ) - 1) / 10 - 1 <
        ((⌊(b : ℚ) + ((M : ℚ) - 1) / 10⌋ : ℤ) : ℚ) := Int.sub_one_lt_floor _
    have h1i : (s.stats.accepted : ℤ) ≤ ⌊(b : ℚ) + ((M : ℚ) - 1) / 10⌋ + 1 := by
      exact_mod_cast (by linarith :
        (s.stats.accepted : ℚ) ≤ ((⌊(b : ℚ) + ((M : ℚ) - 1) / 10⌋ : ℤ) : ℚ) + 1)
    have h2i : ⌊(b : ℚ) + ((M : ℚ) - 1) / 10⌋ - 1 ≤ (s.stats.accepted : ℤ) := by
      exact_mod_cast (by linarith :
        ((⌊(b : ℚ) + ((M : ℚ) - 1) / 10⌋ : ℤ) : ℚ) - 1 ≤ (s.stats.accepted : ℚ))
    rw [abs_le]
    omega

/-- C6 counterexample: with H = 1, burst = 5 and only 2 calls
(T = 0.1 s), the code admits 2 calls but ⌊H·T + burst⌋ ± 1 demands 4 to
6: the ±1 law fails before the burst has drained. -/
theorem rate_limiter_pm1_fails_short_run :
    (runUniform (mkRateLimiter 1 5) (1 / (10 * 1)) 2).stats.accepted = 2 ∧
    ⌊(5 : ℚ) + 1 * (((2 : ℚ) - 1) * (1 / (10 * 1)))⌋ = 5 ∧
    ¬ |((runUniform (mkRateLimiter 1 5) (1 / (10 * 1)) 2).stats.accepted : ℤ) -
        ⌊(5 : ℚ) + 1 * (((2 : ℚ) - 1) * (1 / (10 * 1)))⌋| ≤ 1 := by
  have e2 : runUniform (mkRateLimiter 1 5) (1 / (10 * 1)) 2 =
      (allow (allow (mkRateLimiter 1 5) (((0 : ℕ) : ℚ) * (1 / (10 * 1)))).2
        (((1 : ℕ) : ℚ) * (1 / (10 * 1)))).2 := rfl
  have h1 := allow_noreplenish_accept (mkRateLimiter 1 5)
    (((0 : ℕ) : ℚ) * (1 / (10 * 1)))
    (by norm_num [mkRateLimiter]) (by norm_num [mkRateLimiter])
  set s1 := (allow (mkRateLimiter 1 5) (((0 : ℕ) : ℚ) * (1 / (10 * 1)))).2 with hs1
  have h2 := allow_noreplenish_accept s1 (((1 : ℕ) : ℚ) * (1 / (10 * 1)))
    (by rw [h1.2.2.2.1]; norm_num) (by rw [h1.2.1]; norm_num [mkRateLimiter])
  have hacc : (runUniform (mkRateLimiter 1 5) (1 / (10 * 1)) 2).stats.accepted = 2 := by
    rw [e2, h2.2.2.1, h1.2.2.1]
    norm_num [mkRateLimiter]
  have hfl : ⌊(5 : ℚ) + 1 * (((2 : ℚ) - 1) * (1 / (10 * 1)))⌋ = 5 := by
    rw [show (5 : ℚ) + 1 * (((2 : ℚ) - 1) * (1 / (10 * 1))) = 51 / 10 by norm_num]
    rw [Int.floor_eq_iff]
    constructor
    · norm_num
    · norm_num
  refine ⟨hacc, hfl, ?_⟩
  rw [hacc, hfl]
  norm_num

/-- Witness for C6 at H = 1, burst = 1, M = 3. -/
theorem rate_limiter_throughput_witness :
    (∀ rl t, 0 < rl.last_t →
      (1 ≤ min (rl.burst : ℚ) (rl.tokens + (t - rl.last_t) * rl.max_hz) →
        (allow rl t).1 = true ∧
        (allow rl t).2.tokens =
          min (rl.burst : ℚ) (rl.tokens + (t - rl.last_t) * rl.max_hz) - 1) ∧
      (¬ 1 ≤ min (rl.burst : ℚ) (rl.tokens + (t - rl.last_t) * rl.max_hz) →
        (allow rl t).1 = false ∧
        (allow rl t).2.tokens =
          min (rl.burst : ℚ) (rl.tokens + (t - rl.last_t) * rl.max_hz))) ∧
    |((runUniform (mkRateLimiter 1 1) (1 / (10 * 1)) 3).stats.accepted : ℤ) -
      ⌊(1 : ℚ) + 1 * (((3 : ℚ) - 1) * (1 / (10 * 1)))⌋| ≤ 1 :=
  rate_limiter_throughput 1 1 3 (by norm_num) (by norm_num) (by norm_num)

end RateLim

namespace Ekf

open Matrix Real

/-- EKFConfig (src/onboard/ekf.py lines 35-42). -/
structure EKFConfig where
  process_noise_pos : ℝ
  process_noise_vel : ℝ
  measurement_noise : ℝ
  gate_threshold : ℝ
  max_dt : ℝ

/-- The dataclass defaults of EKFConfig. -/
noncomputable def defaultConfig : EKFConfig :=
  { process_noise_pos := 1e-9, process_noise_vel := 1e-7,
    measurement_noise := 1e-8, gate_threshold := 9, max_dt := 5 }

/-- PositionEKF state (ekf.py lines 55-63): state vector
[lat, lon, vlat, vlon], 4x4 covariance, last timestamp, initialized flag,
last Mahalanobis distance. -/
structure PositionEKF where
  x : Fin 4 → ℝ
  P : Matrix (Fin 4) (Fin 4) ℝ
  last_t : ℝ
  initialized : Bool
  last_innovation_gate : ℝ

/-- The constructor / reset state (ekf.py lines 55-63 and 96-101). -/
noncomputable def mkEKF : PositionEKF :=
  { x := ![0, 0, 0, 0], P := (1e-4 : ℝ) • (1 : Matrix (Fin 4) (Fin 4) ℝ),
    last_t := 0, initialized := false, last_innovation_gate := 0 }

/-- position property (ekf.py lines 78-80). -/
def position (f : PositionEKF) : TileMath.GeoPoint := { lat := f.x 0, lon := f.x 1 }

/-- velocity_mps property (ekf.py lines 82-89): (vn, ve) in m/s. -/
noncomputable def velocity_mps (f : PositionEKF) : ℝ × ℝ :=
  (f.x 2 * 111320, f.x 3 * 111320 * Real.cos (f.x 0 * π / 180))

/-- speed_mps property (ekf.py lines 91-94). -/
noncomputable def speed_mps (f : PositionEKF) : ℝ :=
  Real.sqrt ((velocity_mps f).1 * (velocity_mps f).1 +
    (velocity_mps f).2 * (velocity_mps f).2)

/-- predict (ekf.py lines 103-119): pure read; GeoPoint(0,0) when
uninitialized, current position when dt ≤ 0, else constant-velocity
extrapolation. -/
noncomputable def predict (f : PositionEKF) (t : ℝ) : TileMath.GeoPoint :=
  if f.initialized then
    (let dt := t - f.last_t
     if dt ≤ 0 then position f
     else { lat := f.x 0 + f.x 2 * dt, lon := f.x 1 + f.x 3 * dt })
  else { lat := 0, lon := 0 }

/-- The first-measurement initialization path of update (ekf.py
lines 137-151). -/
noncomputable def ekfInit (cfg : EKFConfig) (z : Fin 2 → ℝ) (hdop t : ℝ) :
    Bool × PositionEKF :=
  (true,
    { x := ![z 0, z 1, 0, 0],
      P := Matrix.diagonal ![cfg.measurement_noise * hdop,
        cfg.measurement_noise * hdop, cfg.process_noise_vel * 10,
        cfg.process_noise_vel * 10],
      last_t := t, initialized := true, last_innovation_gate := 0 })

/-- The clamping of non-positive dt to 1 ms (ekf.py lines 159-160). -/
noncomputable def clampDt (dt : ℝ) : ℝ := if dt ≤ 0 then 1e-3 else dt

/-- State transition matrix F (ekf.py lines 164-169). -/
def Fmat (dt : ℝ) : Matrix (Fin 4) (Fin 4) ℝ :=
  !![1, 0, dt, 0; 0, 1, 0, dt; 0, 0, 1, 0; 0, 0, 0, 1]

/-- Process noise Q (ekf.py lines 174-179). -/
def Qmat (cfg : EKFConfig) (dt : ℝ) : Matrix (Fin 4) (Fin 4) ℝ :=
  Matrix.diagonal ![cfg.process_noise_pos * dt, cfg.process_noise_pos * dt,
    cfg.process_noise_vel * dt, cfg.process_noise_vel * dt]

/-- Measurement matrix H (ekf.py lines 185-188). -/
def Hmat : Matrix (Fin 2) (Fin 4) ℝ := !![1, 0, 0, 0; 0, 1, 0, 0]

/-- Measurement noise R = I2 * r * max(1, hdop) (ekf.py line 191). -/
noncomputable def Rmat (cfg : EKFConfig) (hdop : ℝ) : Matrix (Fin 2) (Fin 2) ℝ :=
  (cfg.measurement_noise * max 1 hdop) • (1 : Matrix (Fin 2) (Fin 2) ℝ)

/-- Predicted state x_pred = F x (ekf.py line 171). -/
noncomputable def xPred (f : PositionEKF) (dt : ℝ) : Fin 4 → ℝ :=
  (Fmat dt).mulVec f.x

/-- Predicted covariance P_pred = F P Fᵀ + Q (ekf.py line 181). -/
noncomputable def pPred (cfg : EKFConfig) (f : PositionEKF) (dt : ℝ) :
    Matrix (Fin 4) (Fin 4) ℝ :=
  Fmat dt * f.P * (Fmat dt)ᵀ + Qmat cfg dt

/-- Innovation y = z - H x_pred (ekf.py line 194). -/
noncomputable def yInnov (f : PositionEKF) (z : Fin 2 → ℝ) (dt : ℝ) : Fin 2 → ℝ :=
  z - Hmat.mulVec (xPred f dt)

/-- Innovation covariance S = H P_pred Hᵀ + R (ekf.py line 195). -/
noncomputable def Smat (cfg : EKFConfig) (f : PositionEKF) (dt hdop : ℝ) :
    Matrix (Fin 2) (Fin 2) ℝ :=
  Hmat * pPred cfg f dt * Hmatᵀ + Rmat cfg hdop

/-- Determinant of a 2x2 matrix, as np.linalg.inv tests it. -/
noncomputable def det2 (S : Matrix (Fin 2) (Fin 2) ℝ) : ℝ :=
  S 0 0 * S 1 1 - S 0 1 * S 1 0

/-- np.linalg.inv on a nonsingular 2x2 matrix (ekf.py line 198). -/
noncomputable def inv2 (S : Matrix (Fin 2) (Fin 2) ℝ) : Matrix (Fin 2) (Fin 2) ℝ :=
  (1 / det2 S) • !![S 1 1, -(S 0 1); -(S 1 0), S 0 0]

/-- Squared Mahalanobis distance m = yᵀ S⁻¹ y (ekf.py line 199). -/
noncomputable def mahalSq (cfg : EKFConfig) (f : PositionEKF) (z : Fin 2 → ℝ)
    (hdop dt : ℝ) : ℝ :=
  dotProduct (yInnov f z dt) ((inv2 (Smat cfg f dt hdop)).mulVec (yInnov f z dt))

/-- Kalman gain K = P_pred Hᵀ S⁻¹ (ekf.py line 211). -/
noncomputable def Kgain (cfg : EKFConfig) (f : PositionEKF) (dt hdop : ℝ) :
    Matrix (Fin 4) (Fin 2) ℝ :=
  pPred cfg f dt * Hmatᵀ * inv2 (Smat cfg f dt hdop)

/-- PositionEKF.update (ekf.py lines 121-218).  Returns none when
np.linalg.inv raises on a singular S.  The gap-reset branch
(dt > max_dt: reset then recursive update) is unfolded to the
initialization it performs. -/
noncomputable def update (cfg : EKFConfig) (f : PositionEKF)
    (measurement : TileMath.GeoPoint) (hdop t : ℝ) : Option (Bool × PositionEKF) :=
  let z : Fin 2 → ℝ := ![measurement.lat, measurement.lon]
  if f.initialized then
    (let dt0 := t - f.last_t
     if dt0 > cfg.max_dt then some (ekfInit cfg z hdop t)
     else
       let dt := clampDt dt0
       if det2 (Smat cfg f dt hdop) = 0 then none
       else
         let m := mahalSq cfg f z hdop dt
         if m > cfg.gate_threshold then
           some (false,
             { x := xPred f dt, P := pPred cfg f dt, last_t := t,
               initialized := true, last_innovation_gate := m })
         else
           some (true,
             { x := xPred f dt + (Kgain cfg f dt hdop).mulVec (yInnov f z dt),
               P := (1 - Kgain cfg f dt hdop * Hmat) * pPred cfg f dt,
               last_t := t, initialized := true, last_innovation_gate := m }))
  else some (ekfInit cfg z hdop t)

/-- Positive semidefiniteness, stated over the quadratic form. -/
def PSD {n : ℕ} (A : Matrix (Fin n) (Fin n) ℝ) : Prop :=
  ∀ v : Fin n → ℝ, 0 ≤ dotProduct v (A.mulVec v)

theorem psd_conj {m n : ℕ} (A : Matrix (Fin m) (Fin n) ℝ)
    (B : Matrix (Fin n) (Fin n) ℝ) (hB : PSD B) : PSD (A * B * Aᵀ) := by
  intro v
  have h1 : (A * B * Aᵀ).mulVec v = A.mulVec (B.mulVec (Aᵀ.mulVec v)) := by
    rw [Matrix.mulVec_mulVec, Matrix.mulVec_mulVec]
  rw [h1, Matrix.dotProduct_mulVec, ← Matrix.mulVec_transpose]
  exact hB (Aᵀ.mulVec v)

theorem psd_diagonal {n : ℕ} (d : Fin n → ℝ) (hd : ∀ i, 0 ≤ d i) :
    PSD (Matrix.diagonal d) := by
  intro v
  simp only [dotProduct, Matrix.mulVec_diagonal]
  refine Finset.sum_nonneg fun i _ => ?_
  nlinarith [hd i, mul_self_nonneg (v i)]

theorem psd_add {n : ℕ} (A B : Matrix (Fin n) (Fin n) ℝ)
    (hA : PSD A) (hB : PSD B) : PSD (A + B) := by
  intro v
  rw [Matrix.add_mulVec, dotProduct_add]
  exact add_nonneg (hA v) (hB v)

/-- Quadratic form of an arbitrary 2x2 matrix, expanded. -/
theorem quad_formula (S : Matrix (Fin 2) (Fin 2) ℝ) (v : Fin 2 → ℝ) :
    dotProduct v (S.mulVec v) =
      S 0 0 * (v 0 * v 0) + (S 0 1 + S 1 0) * (v 0 * v 1) + S 1 1 * (v 1 * v 1) := by
  simp [dotProduct, Matrix.mulVec, Fin.sum_univ_two]
  ring

theorem pPred_psd (cfg : EKFConfig) (f : PositionEKF) (dt : ℝ)
    (hPpsd : PSD f.P) (hq : 0 ≤ cfg.process_noise_pos)
    (hqv : 0 ≤ cfg.process_noise_vel) (hdt : 0 ≤ dt) :
    PSD (pPred cfg f dt) := by
  refine psd_add _ _ (psd_conj (Fmat dt) f.P hPpsd) (psd_diagonal _ ?_)
  intro i
  fin_cases i <;> simp <;> positivity

theorem Smat_quad_pos (cfg : EKFConfig) (f : PositionEKF) (dt hdop : ℝ)
    (hPpsd : PSD f.P) (hq : 0 ≤ cfg.process_noise_pos)
    (hqv : 0 ≤ cfg.process_noise_vel) (hdt : 0 ≤ dt)
    (hr : 0 < cfg.measurement_noise) :
    ∀ v : Fin 2 → ℝ, v ≠ 0 → 0 < dotProduct v ((Smat cfg f dt hdop).mulVec v) := by
  intro v hv
  have hblock : 0 ≤ dotProduct v ((Hmat * pPred cfg f dt * Hmatᵀ).mulVec v) :=
    psd_conj Hmat (pPred cfg f dt) (pPred_psd cfg f dt hPpsd hq hqv hdt) v
  have hcpos : 0 < cfg.measurement_noise * max 1 hdop := by
    have h1 : (0 : ℝ) < max 1 hdop := lt_of_lt_of_le one_pos (le_max_left 1 hdop)
    positivity
  have hRquad : dotProduct v ((Rmat cfg hdop).mulVec v) =
      cfg.measurement_noise * max 1 hdop * (v 0 * v 0 + v 1 * v 1) := by
    rw [Rmat, Matrix.smul_mulVec_assoc, Matrix.one_mulVec]
    simp [dotProduct, Fin.sum_univ_two]
    ring
  have hvsum : 0 < v 0 * v 0 + v 1 * v 1 := by
    rcases Function.ne_iff.mp hv with ⟨i, hi⟩
    fin_cases i
    · have h0 : v 0 ≠ 0 := hi
      nlinarith [mul_self_pos.mpr h0, mul_self_nonneg (v 1)]
    · have h0 : v 1 ≠ 0 := hi
      nlinarith [mul_self_pos.mpr h0, mul_self_nonneg (v 0)]
  have hsplit : dotProduct v ((Smat cfg f dt hdop).mulVec v) =
      dotProduct v ((Hmat * pPred cfg f dt * Hmatᵀ).mulVec v) +
      dotProduct v ((Rmat cfg hdop).mulVec v) := by
    rw [Smat, Matrix.add_mulVec, dotProduct_add]
  rw [hsplit, hRquad]
  nlinarith

theorem Smat_symm_entries (cfg : EKFConfig) (f : PositionEKF) (dt hdop : ℝ)
    (hPsym : f.Pᵀ = f.P) :
    Smat cfg f dt hdop 0 1 = Smat cfg f dt hdop 1 0 := by
  have hQ : (Qmat cfg dt)ᵀ = Qmat cfg dt := Matrix.diagonal_transpose _
  have hPp : (pPred cfg f dt)ᵀ = pPred cfg f dt := by
    rw [pPred, Matrix.transpose_add, hQ, Matrix.transpose_mul, Matrix.transpose_mul,
      Matrix.transpose_transpose, hPsym, Matrix.mul_assoc]
  have hS : (Smat cfg f dt hdop)ᵀ = Smat cfg f dt hdop := by
    rw [Smat, Matrix.transpose_add, Matrix.transpose_mul, Matrix.transpose_mul,
      Matrix.transpose_transpose, hPp, Matrix.mul_assoc]
    congr 1
    rw [Rmat, Matrix.transpose_smul, Matrix.transpose_one]
  have := congrFun (congrFun hS 0) 1
  rw [Matrix.transpose_apply] at this
  exact this.symm

theorem Smat_pos_entries (cfg : EKFConfig) (f : PositionEKF) (dt hdop : ℝ)
    (hPsym : f.Pᵀ = f.P) (hPpsd : PSD f.P) (hq : 0 ≤ cfg.process_noise_pos)
    (hqv : 0 ≤ cfg.process_noise_vel) (hdt : 0 ≤ dt)
    (hr : 0 < cfg.measurement_noise) :
    0 < Smat cfg f dt hdop 0 0 ∧ 0 < Smat cfg f dt hdop 1 1 ∧
    0 < det2 (Smat cfg f dt hdop) := by
  have hquad := Smat_quad_pos cfg f dt hdop hPpsd hq hqv hdt hr
  have hsym := Smat_symm_entries cfg f dt hdop hPsym
  have h00 : 0 < Smat cfg f dt hdop 0 0 := by
    have hne : (![1, 0] : Fin 2 → ℝ) ≠ 0 := by
      intro h
      have := congrFun h 0
      simp at this
    have := hquad ![1, 0] hne
    rw [quad_formula] at this
    simpa using this
  have h11 : 0 < Smat cfg f dt hdop 1 1 := by
    have hne : (![0, 1] : Fin 2 → ℝ) ≠ 0 := by
      intro h
      have := congrFun h 1
      simp at this
    have := hquad ![0, 1] hne
    rw [quad_formula] at this
    simpa using this
  refine ⟨h00, h11, ?_⟩
  have hne : (![Smat cfg f dt hdop 0 1, -(Smat cfg f dt hdop 0 0)] : Fin 2 → ℝ) ≠ 0 := by
    intro h
    have := congrFun h 1
    simp at this
    linarith
  have hd := hquad _ hne
  rw [quad_formula] at hd
  simp only [Matrix.cons_val_zero, Matrix.cons_val_one, Matrix.head_cons] at hd
  rw [← hsym] at hd
  rw [det2, ← hsym]
  nlinarith [hd, h00]

theorem mahalSq_nonneg (cfg : EKFConfig) (f : PositionEKF) (z : Fin 2 → ℝ)
    (hdop dt : ℝ)
    (hPsym : f.Pᵀ = f.P) (hPpsd : PSD f.P) (hq : 0 ≤ cfg.process_noise_pos)
    (hqv : 0 ≤ cfg.process_noise_vel) (hdt : 0 ≤ dt)
    (hr : 0 < cfg.measurement_noise) :
    0 ≤ mahalSq cfg f z hdop dt := by
  obtain ⟨h00, h11, hdet⟩ :=
    Smat_pos_entries cfg f dt hdop hPsym hPpsd hq hqv hdt hr
  have hsym := Smat_symm_entries cfg f dt hdop hPsym
  rw [mahalSq, inv2, Matrix.smul_mulVec_assoc, dotProduct_smul, smul_eq_mul]
  have hquad : 0 ≤ dotProduct (yInnov f z dt)
      ((!![Smat cfg f dt hdop 1 1, -(Smat cfg f dt hdop 0 1);
          -(Smat cfg f dt hdop 1 0), Smat cfg f dt hdop 0 0]).mulVec
        (yInnov f z dt)) := by
    rw [quad_formula]
    simp only [Matrix.cons_val', Matrix.cons_val_zero, Matrix.cons_val_one,
      Matrix.head_cons, Matrix.empty_val', Matrix.cons_val_fin_one,
      Matrix.head_fin_const, Matrix.of_apply]
    rw [det2, ← hsym] at hdet
    rw [← hsym]
    nlinarith [sq_nonneg (Smat cfg f dt hdop 0 0 * yInnov f z dt 1 -
      Smat cfg f dt hdop 0 1 * yInnov f z dt 0),
      sq_nonneg (yInnov f z dt 0), hdet, h00]
  have hdetpos : 0 < 1 / det2 (Smat cfg f dt hdop) := by positivity
  exact mul_nonneg (le_of_lt hdetpos) hquad

/-- C2: for an initialized filter and a measurement with 0 < dt ≤ max_dt
(covariance symmetric positive semidefinite, noises nonnegative,
measurement noise positive): the squared Mahalanobis innovation distance
is nonnegative, and when it exceeds the gate threshold, update returns
rejected with the post-state exactly the prediction (x = x_pred,
P = P_pred, timestamp = t, innovation recorded) — the measurement value
never enters the state. -/
theorem ekf_gate_rejection (cfg : EKFConfig) (f : PositionEKF)
    (meas : TileMath.GeoPoint) (hdop t : ℝ)
    (hinit : f.initialized = true)
    (hdt0 : 0 < t - f.last_t) (hdt1 : t - f.last_t ≤ cfg.max_dt)
    (hPsym : f.Pᵀ = f.P) (hPpsd : PSD f.P)
    (hq : 0 ≤ cfg.process_noise_pos) (hqv : 0 ≤ cfg.process_noise_vel)
    (hr : 0 < cfg.measurement_noise) :
    0 ≤ mahalSq cfg f ![meas.lat, meas.lon] hdop (t - f.last_t) ∧
    (cfg.gate_threshold < mahalSq cfg f ![meas.lat, meas.lon] hdop (t - f.last_t) →
      update cfg f meas hdop t = some (false,
        { x := xPred f (t - f.last_t), P := pPred cfg f (t - f.last_t),
          last_t := t, initialized := true,
          last_innovation_gate :=
            mahalSq cfg f ![meas.lat, meas.lon] hdop (t - f.last_t) })) := by
  have hdtnn : 0 ≤ t - f.last_t := le_of_lt hdt0
  refine ⟨mahalSq_nonneg cfg f _ hdop _ hPsym hPpsd hq hqv hdtnn hr, ?_⟩
  intro hgate
  obtain ⟨h00, h11, hdet⟩ :=
    Smat_pos_entries cfg f (t - f.last_t) hdop hPsym hPpsd hq hqv hdtnn hr
  have hclamp : clampDt (t - f.last_t) = t - f.last_t := by
    rw [clampDt, if_neg (not_le.mpr hdt0)]
  rw [update, if_pos hinit, if_neg (not_lt.mpr hdt1), hclamp,
    if_neg (ne_of_gt hdet), if_pos hgate]

/-- A concrete config: unit noises, gate 9, max_dt 5. -/
noncomputable def cfgW : EKFConfig :=
  { process_noise_pos := 1, process_noise_vel := 1, measurement_noise := 1,
    gate_threshold := 9, max_dt := 5 }

/-- A concrete initialized filter at the origin with identity covariance. -/
noncomputable def fW : PositionEKF :=
  { x := ![0, 0, 0, 0], P := 1, last_t := 0, initialized := true,
    last_innovation_gate := 0 }

/-- Witness for C2 at a measurement 10 degrees away after 1 second. -/
theorem ekf_gate_rejection_witness :
    0 ≤ mahalSq cfgW fW ![(10 : ℝ), 0] 1 (1 - fW.last_t) ∧
    (cfgW.gate_threshold < mahalSq cfgW fW ![(10 : ℝ), 0] 1 (1 - fW.last_t) →
      update cfgW fW { lat := 10, lon := 0 } 1 1 = some (false,
        { x := xPred fW (1 - fW.last_t), P := pPred cfgW fW (1 - fW.last_t),
          last_t := 1, initialized := true,
          last_innovation_gate := mahalSq cfgW fW ![(10 : ℝ), 0] 1 (1 - fW.last_t) })) :=
  ekf_gate_rejection cfgW fW { lat := 10, lon := 0 } 1 1 rfl
    (by norm_num [fW]) (by norm_num [fW, cfgW])
    (by simp [fW])
    (by
      intro v
      have hP : fW.P.mulVec v = v := by
        simp [fW, Matrix.one_mulVec]
      rw [hP]
      exact Finset.sum_nonneg fun i _ => mul_self_nonneg (v i))
    (by norm_num [cfgW]) (by norm_num [cfgW]) (by norm_num [cfgW])

end Ekf

namespace Fusion

open Real

/-- CircleGeofence (src/onboard/geofence.py lines 19-40). -/
structure CircleGeofence where
  center : TileMath.GeoPoint
  radius_km : ℝ
  margin_km : ℝ

/-- CircleGeofence.contains (geofence.py lines 29-32): inside iff the
haversine distance is at most radius + margin. -/
noncomputable def CircleGeofence.contains (g : CircleGeofence)
    (point : TileMath.GeoPoint) : Bool :=
  decide (TileMath.haversine_km g.center point ≤ g.radius_km + g.margin_km)

/-- GeofenceChecker (geofence.py lines 56-73): a fence plus violation
counters.  PositionFusion only ever constructs circle fences. -/
structure GeofenceChecker where
  fence : CircleGeofence
  max_violations : ℕ
  consecutive_violations : ℕ
  total_checks : ℕ
  total_violations : ℕ

/-- GeofenceChecker.check (geofence.py lines 74-88): count the check,
reset the consecutive counter on success, increment both violation
counters on failure; returns whether the point is inside. -/
noncomputable def check (gc : GeofenceChecker) (point : TileMath.GeoPoint) :
    Bool × GeofenceChecker :=
  let inside := gc.fence.contains point
  (inside,
    { gc with
      total_checks := gc.total_checks + 1,
      consecutive_violations := if inside then 0 else gc.consecutive_violations + 1,
      total_violations := if inside then gc.total_violations else gc.total_violations + 1 })

/-- FusionOutput (src/onboard/fusion.py lines 28-38). -/
structure FusionOutput where
  position : Option TileMath.GeoPoint
  hdop : ℝ
  speed_mps : ℝ
  heading_deg : ℝ
  fix_quality : ℕ
  source : String
  geofence_ok : Bool
  ekf_accepted : Bool

/-- PositionFusion state (fusion.py lines 53-71): the EKF (with its
config), the dead reckoner, and the optional geofence checker. -/
structure PositionFusion where
  ekf_config : Ekf.EKFConfig
  ekf : Ekf.PositionEKF
  dr : DeadReck.DeadReckoning
  fence : Option GeofenceChecker

/-- The candidate selected by fusion.update lines 92-127 before the
geofence check and the final dead-reckoning fallback: accepted flag,
candidate position/hdop/source/quality, and the updated EKF and dead
reckoner. -/
structure FusionCandidate where
  ekf_accepted : Bool
  output_pos : Option TileMath.GeoPoint
  output_hdop : ℝ
  source : String
  fix_quality : ℕ
  ekf2 : Ekf.PositionEKF
  dr2 : DeadReck.DeadReckoning

/-- Cases 1 and 2 of fusion.update (fusion.py lines 92-119): visual fix
through the EKF (refreshing the dead-reckoning reference), else an EKF
prediction published only when it differs from (0, 0); none when the EKF
update raises. -/
noncomputable def fusionSelect (fus : PositionFusion)
    (visual_position : Option TileMath.GeoPoint) (hdop t : ℝ) :
    Option FusionCandidate :=
  match visual_position with
  | some vp =>
    match Ekf.update fus.ekf_config fus.ekf vp hdop t with
    | none => none
    | some (acc, ekf2) =>
      if ekf2.initialized then
        some { ekf_accepted := acc,
               output_pos := some (Ekf.position ekf2),
               output_hdop := hdop, source := "visual", fix_quality := 1,
               ekf2 := ekf2,
               dr2 := DeadReck.update_reference fus.dr (Ekf.position ekf2)
                 (Ekf.velocity_mps ekf2).1 (Ekf.velocity_mps ekf2).2 hdop t }
      else
        some { ekf_accepted := acc, output_pos := none, output_hdop := 99,
               source := "none", fix_quality := 0, ekf2 := ekf2, dr2 := fus.dr }
  | none =>
    if fus.ekf.initialized then
      (let predicted := Ekf.predict fus.ekf t
       if predicted.lat ≠ 0 ∨ predicted.lon ≠ 0 then
         some { ekf_accepted := false, output_pos := some predicted,
                output_hdop := 3, source := "ekf_predict", fix_quality := 2,
                ekf2 := fus.ekf, dr2 := fus.dr }
       else
         some { ekf_accepted := false, output_pos := none, output_hdop := 99,
                source := "none", fix_quality := 0, ekf2 := fus.ekf, dr2 := fus.dr })
    else
      some { ekf_accepted := false, output_pos := none, output_hdop := 99,
             source := "none", fix_quality := 0, ekf2 := fus.ekf, dr2 := fus.dr }

/-- Result of the dead-reckoning fallback stage. -/
structure Stage3 where
  pos : Option TileMath.GeoPoint
  hdop : ℝ
  source : String
  quality : ℕ

/-- Case 3 of fusion.update (fusion.py lines 121-127): when no candidate
position was selected, try dead reckoning. -/
noncomputable def drFallback (c : FusionCandidate) (t : ℝ) : Stage3 :=
  match c.output_pos with
  | some p => { pos := some p, hdop := c.output_hdop, source := c.source,
                quality := c.fix_quality }
  | none =>
    match DeadReck.extrapolate c.dr2 t with
    | some (p, dh) => { pos := some p, hdop := dh, source := "dead_reckoning",
                        quality := 3 }
    | none => { pos := none, hdop := c.output_hdop, source := c.source,
                quality := c.fix_quality }

/-- Result of the geofence stage. -/
structure GeoStage where
  pos : Option TileMath.GeoPoint
  quality : ℕ
  source : String
  ok : Bool
  fence : Option GeofenceChecker

/-- The geofence check of fusion.update (fusion.py lines 129-141): only
run when a position was selected and a fence is configured; a violation
suppresses the position and forces quality 0, source "none". -/
noncomputable def geofenceStage (fence : Option GeofenceChecker) (s : Stage3) :
    GeoStage :=
  match s.pos, fence with
  | some p, some gc =>
    (let r := check gc p
     if r.1 then { pos := some p, quality := s.quality, source := s.source,
                   ok := true, fence := some r.2 }
     else { pos := none, quality := 0, source := "none", ok := false,
            fence := some r.2 })
  | _, _ => { pos := s.pos, quality := s.quality, source := s.source,
              ok := true, fence := fence }

/-- Python math.atan2(y, x), via the complex argument of x + i·y. -/
noncomputable def atan2 (y x : ℝ) : ℝ := Complex.arg ⟨x, y⟩

/-- Python float `a % b`: the result has the sign of b. -/
noncomputable def pyMod (a b : ℝ) : ℝ := a - b * ⌊a / b⌋

/-- Speed and heading of fusion.update (fusion.py lines 143-151): heading
only when speed exceeds 0.5 m/s. -/
noncomputable def speedHeading (e : Ekf.PositionEKF) : ℝ × ℝ :=
  if e.initialized then
    (let sp := Ekf.speed_mps e
     (sp, if 0.5 < sp then
        pyMod (atan2 (Ekf.velocity_mps e).2 (Ekf.velocity_mps e).1 * 180 / π) 360
      else 0))
  else (0, 0)

/-- PositionFusion.update (fusion.py lines 73-162), assembled from the
stages; none when the EKF update raises. -/
noncomputable def fusionUpdate (fus : PositionFusion)
    (visual_position : Option TileMath.GeoPoint) (hdop t : ℝ) :
    Option (FusionOutput × PositionFusion) :=
  match fusionSelect fus visual_position hdop t with
  | none => none
  | some c =>
    let s3 := drFallback c t
    let g := geofenceStage fus.fence s3
    let sh := speedHeading c.ekf2
    some ({ position := g.pos, hdop := s3.hdop, speed_mps := sh.1,
            heading_deg := sh.2, fix_quality := g.quality, source := g.source,
            geofence_ok := g.ok, ekf_accepted := c.ekf_accepted },
          { fus with ekf := c.ekf2, dr := c.dr2, fence := g.fence })

theorem fusionSelect_pos_none (fus : PositionFusion)
    (vp : Option TileMath.GeoPoint) (hdop t : ℝ) (c : FusionCandidate)
    (h : fusionSelect fus vp hdop t = some c) (hpos : c.output_pos = none) :
    c.source = "none" ∧ c.fix_quality = 0 := by
  rcases vp with _ | p
  · simp only [fusionSelect] at h
    by_cases hini : fus.ekf.initialized
    · rw [if_pos hini] at h
      by_cases hpred : (Ekf.predict fus.ekf t).lat ≠ 0 ∨ (Ekf.predict fus.ekf t).lon ≠ 0
      · rw [if_pos hpred] at h
        simp only [Option.some.injEq] at h
        rw [← h] at hpos
        simp at hpos
      · rw [if_neg hpred] at h
        simp only [Option.some.injEq] at h
        rw [← h]
        exact ⟨rfl, rfl⟩
    · rw [if_neg hini] at h
      simp only [Option.some.injEq] at h
      rw [← h]
      exact ⟨rfl, rfl⟩
  · simp only [fusionSelect] at h
    rcases hup : Ekf.update fus.ekf_config fus.ekf p hdop t with _ | ⟨acc, e2⟩
    · simp only [hup] at h
      exact Option.noConfusion h
    · simp only [hup] at h
      by_cases hini : e2.initialized
      · rw [if_pos hini] at h
        simp only [Option.some.injEq] at h
        rw [← h] at hpos
        simp at hpos
      · rw [if_neg hini] at h
        simp only [Option.some.injEq] at h
        rw [← h]
        exact ⟨rfl, rfl⟩

theorem drFallback_inv (c : FusionCandidate) (t : ℝ)
    (hc : c.output_pos = none → c.source = "none" ∧ c.fix_quality = 0) :
    (drFallback c t).pos = none →
      (drFallback c t).source = "none" ∧ (drFallback c t).quality = 0 := by
  intro hpos
  rcases hcp : c.output_pos with _ | p
  · rcases hdr : DeadReck.extrapolate c.dr2 t with _ | ⟨p, dh⟩
    · simp only [drFallback, hcp, hdr]
      exact hc hcp
    · simp only [drFallback, hcp, hdr] at hpos
      exact Option.noConfusion hpos
  · simp only [drFallback, hcp] at hpos
    exact Option.noConfusion hpos

/-- Invariant of a completed fusion update: position None forces
quality 0 and source "none", and a surviving position means the geofence
check passed (or no fence is configured). -/
def outInv : Option (FusionOutput × PositionFusion) → Prop
  | none => True
  | some (out, _) =>
    (out.position = none → out.fix_quality = 0 ∧ out.source = "none") ∧
    (out.position ≠ none → out.geofence_ok = true)

/-- C1: every FusionOutput produced by PositionFusion.update satisfies:
if position is None then fix_quality = 0 and source = "none"; and if
position is present then geofence_ok = true (violations suppress the
position). -/
theorem fusion_geofence_conservation (fus : PositionFusion)
    (vp : Option TileMath.GeoPoint) (hdop t : ℝ) :
    outInv (fusionUpdate fus vp hdop t) := by
  rcases hsel : fusionSelect fus vp hdop t with _ | c
  · simp [fusionUpdate, hsel, outInv]
  · have hcand := fusionSelect_pos_none fus vp hdop t c hsel
    have h3 := drFallback_inv c t hcand
    simp only [fusionUpdate, hsel, outInv]
    rcases hsp : (drFallback c t).pos with _ | p
    · obtain ⟨hs, hq⟩ := h3 hsp
      rcases hfence : fus.fence with _ | gc <;>
        simp [geofenceStage, hsp, hfence, hs, hq]
    · rcases hfence : fus.fence with _ | gc
      · simp [geofenceStage, hsp, hfence]
      · by_cases hok : (check gc p).1 <;>
          simp [geofenceStage, hsp, hfence, hok]

/-- Invariant of PositionEKF.update results: the filter is always
initialized afterwards. -/
def updInv : Option (Bool × Ekf.PositionEKF) → Prop
  | none => True
  | some (_, f2) => f2.initialized = true

theorem update_initialized (cfg : Ekf.EKFConfig) (f : Ekf.PositionEKF)
    (meas : TileMath.GeoPoint) (hdop t : ℝ) :
    updInv (Ekf.update cfg f meas hdop t) := by
  rcases h : Ekf.update cfg f meas hdop t with _ | ⟨acc, f2⟩
  · exact trivial
  · show f2.initialized = true
    simp only [Ekf.update] at h
    split at h
    · split at h
      · simp only [Ekf.ekfInit, Option.some.injEq, Prod.mk.injEq] at h
        rw [← h.2]
      · split at h
        · exact Option.noConfusion h
        · split at h
          · simp only [Option.some.injEq, Prod.mk.injEq] at h
            rw [← h.2]
          · simp only [Option.some.injEq, Prod.mk.injEq] at h
            rw [← h.2]
    · simp only [Ekf.ekfInit, Option.some.injEq, Prod.mk.injEq] at h
      rw [← h.2]

/-- Invariant of fusionSelect on a visual fix: the candidate is always
tagged "visual" with fix_quality 1, over an initialized filter. -/
def selVisualInv : Option FusionCandidate → Prop
  | none => True
  | some c => c.source = "visual" ∧ c.fix_quality = 1 ∧ c.ekf2.initialized = true

/-- C9: PositionEKF.update always leaves the filter initialized (the
first-measurement path initializes it and the gap-reset path
re-initializes with the incoming measurement), so a fusion update with a
visual position always selects source "visual" with fix_quality 1 before
geofence filtering, even when the measurement was gate-rejected. -/
theorem fusion_visual_always_selected :
    (∀ (cfg : Ekf.EKFConfig) (f : Ekf.PositionEKF) (meas : TileMath.GeoPoint)
      (hdop t : ℝ), updInv (Ekf.update cfg f meas hdop t)) ∧
    (∀ (fus : PositionFusion) (p : TileMath.GeoPoint) (hdop t : ℝ),
      selVisualInv (fusionSelect fus (some p) hdop t)) := by
  refine ⟨update_initialized, ?_⟩
  intro fus p hdop t
  rcases hup : Ekf.update fus.ekf_config fus.ekf p hdop t with _ | ⟨acc, e2⟩
  · simp [fusionSelect, hup, selVisualInv]
  · have hini : e2.initialized = true := by
      have h := update_initialized fus.ekf_config fus.ekf p hdop t
      rw [hup] at h
      exact h
    simp [fusionSelect, hup, hini, selVisualInv]

/-- C10: with no visual fix and an initialized filter, the EKF prediction
is published as "ekf_predict" only when it differs from exactly (0, 0); a
prediction at exactly (0, 0) is treated as absent (it doubles as the
uninitialized-predict sentinel) and the engine falls through to dead
reckoning or a no-fix output. -/
theorem fusion_zero_predict_sentinel (fus : PositionFusion) (hdop t : ℝ)
    (hinit : fus.ekf.initialized = true) :
    (∀ f2 : Ekf.PositionEKF, f2.initialized = false →
      Ekf.predict f2 t = { lat := 0, lon := 0 }) ∧
    (Ekf.predict fus.ekf t = { lat := 0, lon := 0 } →
      fusionSelect fus none hdop t = some
        { ekf_accepted := false, output_pos := none, output_hdop := 99,
          source := "none", fix_quality := 0, ekf2 := fus.ekf, dr2 := fus.dr } ∧
      (∀ out fus2, fusionUpdate fus none hdop t = some (out, fus2) →
        out.source = "dead_reckoning" ∨ out.source = "none")) ∧
    (Ekf.predict fus.ekf t ≠ { lat := 0, lon := 0 } →
      fusionSelect fus none hdop t = some
        { ekf_accepted := false, output_pos := some (Ekf.predict fus.ekf t),
          output_hdop := 3, source := "ekf_predict", fix_quality := 2,
          ekf2 := fus.ekf, dr2 := fus.dr }) := by
  refine ⟨?_, ?_, ?_⟩
  · intro f2 h2
    rw [Ekf.predict, if_neg (by simp [h2])]
  · intro hzero
    have hcond : ¬ ((Ekf.predict fus.ekf t).lat ≠ 0 ∨ (Ekf.predict fus.ekf t).lon ≠ 0) := by
      rw [hzero]
      simp
    have hsel : fusionSelect fus none hdop t = some
        { ekf_accepted := false, output_pos := none, output_hdop := 99,
          source := "none", fix_quality := 0, ekf2 := fus.ekf, dr2 := fus.dr } := by
      rw [fusionSelect]
      rw [if_pos hinit, if_neg hcond]
    refine ⟨hsel, ?_⟩
    intro out fus2 hupd
    simp only [fusionUpdate, hsel] at hupd
    rcases hdr : DeadReck.extrapolate fus.dr t with _ | ⟨p, dh⟩
    · have hs3 : drFallback
          { ekf_accepted := false, output_pos := none, output_hdop := 99,
            source := "none", fix_quality := 0, ekf2 := fus.ekf, dr2 := fus.dr } t =
          { pos := none, hdop := 99, source := "none", quality := 0 } := by
        simp [drFallback, hdr]
      rw [hs3] at hupd
      rcases hfence : fus.fence with _ | gc <;>
        (rw [hfence] at hupd
         simp only [geofenceStage, Option.some.injEq, Prod.mk.injEq] at hupd
         right
         rw [← hupd.1])
    · have hs3 : drFallback
          { ekf_accepted := false, output_pos := none, output_hdop := 99,
            source := "none", fix_quality := 0, ekf2 := fus.ekf, dr2 := fus.dr } t =
          { pos := some p, hdop := dh, source := "dead_reckoning", quality := 3 } := by
        simp [drFallback, hdr]
      rw [hs3] at hupd
      rcases hfence : fus.fence with _ | gc
      · rw [hfence] at hupd
        simp only [geofenceStage, Option.some.injEq, Prod.mk.injEq] at hupd
        left
        rw [← hupd.1]
      · rw [hfence] at hupd
        by_cases hok : (check gc p).1
        · simp only [geofenceStage, if_pos hok, Option.some.injEq,
            Prod.mk.injEq] at hupd
          left
          rw [← hupd.1]
        · simp only [geofenceStage, if_neg hok, Option.some.injEq,
            Prod.mk.injEq] at hupd
          right
          rw [← hupd.1]
  · intro hne
    have hcond : (Ekf.predict fus.ekf t).lat ≠ 0 ∨ (Ekf.predict fus.ekf t).lon ≠ 0 := by
      by_contra hc
      push_neg at hc
      apply hne
      rcases hp : Ekf.predict fus.ekf t with ⟨la, lo⟩
      rw [hp] at hc
      simp only at hc
      rw [hc.1, hc.2]
    rw [fusionSelect]
    rw [if_pos hinit, if_pos hcond]

/-- A concrete fusion engine: initialized EKF at the origin, no
dead-reckoning reference, no geofence. -/
noncomputable def fusW : PositionFusion :=
  { ekf_config := Ekf.cfgW, ekf := Ekf.fW,
    dr := { max_extrap := 10, hdop_rate := 1, state := none }, fence := none }

/-- Witness for C10 at the concrete engine, hdop 1, t = 0. -/
theorem fusion_zero_predict_sentinel_witness :
    (∀ f2 : Ekf.PositionEKF, f2.initialized = false →
      Ekf.predict f2 0 = { lat := 0, lon := 0 }) ∧
    (Ekf.predict fusW.ekf 0 = { lat := 0, lon := 0 } →
      fusionSelect fusW none 1 0 = some
        { ekf_accepted := false, output_pos := none, output_hdop := 99,
          source := "none", fix_quality := 0, ekf2 := fusW.ekf, dr2 := fusW.dr } ∧
      (∀ out fus2, fusionUpdate fusW none 1 0 = some (out, fus2) →
        out.source = "dead_reckoning" ∨ out.source = "none")) ∧
    (Ekf.predict fusW.ekf 0 ≠ { lat := 0, lon := 0 } →
      fusionSelect fusW none 1 0 = some
        { ekf_accepted := false, output_pos := some (Ekf.predict fusW.ekf 0),
          output_hdop := 3, source := "ekf_predict", fix_quality := 2,
          ekf2 := fusW.ekf, dr2 := fusW.dr }) :=
  fusion_zero_predict_sentinel fusW 1 0 rfl

end Fusion
